import Mathlib

/-!
Verification of the AdEx validator stack core (validator_worker, adapter,
primitives crates) against its natural-language specification.

The Rust code is shallowly embedded: pure functions become Lean functions,
async functions become functions from their input data (and the denotations
of the futures they await) to the value their future resolves to, and
fallible code returns Except.  External library calls (keccak, secp256k1,
base64, serde_json, HTTP) are passed in as explicit function parameters so
that the glue code of the repository itself is what the theorems are about.
-/

/-! ## Byte and hex utilities (behaviour of the hex crate) -/

/-- Bytes are naturals below 256. -/
abbrev Byte := Nat

/-- Numeric value of one hexadecimal digit, accepting both cases,
as hex::decode does. -/
def hexDigitVal (c : Char) : Option Nat :=
  if ('0' ≤ c ∧ c ≤ '9') then some (c.toNat - '0'.toNat)
  else if ('a' ≤ c ∧ c ≤ 'f') then some (c.toNat - 'a'.toNat + 10)
  else if ('A' ≤ c ∧ c ≤ 'F') then some (c.toNat - 'A'.toNat + 10)
  else none

/-- Lowercase hexadecimal digit for a value below 16, as hex::encode emits. -/
def hexDigitChar (n : Nat) : Char :=
  if n < 10 then Char.ofNat ('0'.toNat + n)
  else Char.ofNat ('a'.toNat + (n - 10))

/-- Hex-encode a byte list, two lowercase digits per byte (hex::encode). -/
def hexEncodeList : List Byte → List Char
  | [] => []
  | b :: rest => hexDigitChar (b / 16) :: hexDigitChar (b % 16) :: hexEncodeList rest

/-- Hex-encode a byte list into a string (hex::encode). -/
def hexEncode (bs : List Byte) : String :=
  ⟨hexEncodeList bs⟩

/-- Hex-decode a character list in pairs; fails on an odd length or a
non-hex character, exactly as hex::decode does. -/
def hexDecodeList : List Char → Option (List Byte)
  | [] => some []
  | [_] => none
  | c₁ :: c₂ :: rest =>
    match hexDigitVal c₁, hexDigitVal c₂, hexDecodeList rest with
    | some h, some l, some bs => some ((h * 16 + l) :: bs)
    | _, _, _ => none

/-- Hex-decode a string (hex::decode). -/
def hexDecode (s : String) : Option (List Byte) :=
  hexDecodeList s.data

/-! ## futures combinators, denotationally

A resolved future is its value; try_join_all of a list of fallible
futures resolves to the list of values when all succeed and to the
error of the failing future otherwise (the remaining futures are
dropped, i.e. cancelled). -/

/-- Denotation of futures try_join_all on already-determined outcomes:
collects all successes, short-circuits at a failure. -/
def tryJoinAll {ε α : Type} : List (Except ε α) → Except ε (List α)
  | [] => Except.ok []
  | r :: rs => do
    let a ← r
    let as ← tryJoinAll rs
    pure (a :: as)

/-- Denotation of futures join_all: every outcome is kept. -/
def joinAll {α : Type} (fs : List α) : List α := fs

/-- Decidable equality of outcomes, so that concrete runs can be checked. -/
instance {ε α : Type} [DecidableEq ε] [DecidableEq α] : DecidableEq (Except ε α) := fun a b =>
  match a, b with
  | Except.ok x, Except.ok y =>
    if h : x = y then isTrue (by rw [h])
    else isFalse (by intro hh; cases hh; exact h rfl)
  | Except.error x, Except.error y =>
    if h : x = y then isTrue (by rw [h])
    else isFalse (by intro hh; cases hh; exact h rfl)
  | Except.ok _, Except.error _ => isFalse (by intro hh; exact Except.noConfusion hh)
  | Except.error _, Except.ok _ => isFalse (by intro hh; exact Except.noConfusion hh)

/-- A try_join_all in which every outcome before the first failure
succeeds resolves to that first failure. -/
theorem tryJoinAll_error_after_oks {ε α : Type}
    (xs : List (Except ε α)) (e : ε) (rest : List (Except ε α))
    (hxs : ∀ x ∈ xs, ∃ a, x = Except.ok a) :
    tryJoinAll (xs ++ Except.error e :: rest) = Except.error e := by
  induction xs with
  | nil => rfl
  | cons x xs ih =>
    obtain ⟨a, ha⟩ := hxs x (List.mem_cons_self x xs)
    subst ha
    have htail := ih (fun y hy => hxs y (List.mem_cons_of_mem _ hy))
    simp only [List.cons_append, tryJoinAll, bind, Except.bind, List.append_eq, htail]

/-! ## validator_worker/src/leader.rs -/

/-- A balances map, from an address to an unsigned big integer.
BalancesMap::default() is the empty map. -/
abbrev BalancesMap := List (Nat × Nat)

/-- AccountingResponse from the Sentry, carrying the balances. -/
structure AccountingResponse where
  balances : BalancesMap

/-- A NewState validator message as built by the Leader. -/
structure NewState where
  state_root : String
  signature : String
  balances : BalancesMap

/-- Per-recipient outcome of a propagation, Ok(ValidatorId) or
Err((ValidatorId, Error)); validator ids and errors abstracted. -/
abbrev PropagationResult (V E : Type) := Except (V × E) V

/-- TickStatus returned by leader::tick; the heartbeat status and the
propagation results are abstracted by type parameters. -/
structure TickStatus (H P : Type) where
  heartbeat : H
  new_state : Option (List P)

/-- Shallow embedding of leader::tick (leader.rs lines 22-34).  The body
binds new_state to None — the accounting fetch, the comparison with the
latest NewState and the NewState construction are an unimplemented stub,
marked only by the comments 1.-3. in the source — and then resolves the
heartbeat future. -/
def leader.tick {E H P : Type} (heartbeat_result : Except E H) :
    Except E (TickStatus H P) := do
  let new_state := none
  let hb ← heartbeat_result
  pure { heartbeat := hb, new_state := new_state }

/-- Shallow embedding of leader::_on_new_accounting (leader.rs lines 36-54).

Modelled from the spec: get_state_root_hash lives in the validator_worker
crate root, which is not among the provided sources; per spec section 4.1
it is the Merkle root of the canonicalised balances and is passed here as
the abstract parameter state_root_hash.  The source calls it on
BalancesMap::default() — the empty map — while the propagated message
carries new_accounting.balances. -/
def leader.on_new_accounting {E : Type}
    (state_root_hash : BalancesMap → List Byte)
    (adapter_sign : String → Except E String)
    (propagate : NewState → List (PropagationResult Nat E))
    (new_accounting : AccountingResponse) :
    Except E (NewState × List (PropagationResult Nat E)) := do
  let state_root_raw := state_root_hash []
  let state_root := hexEncode state_root_raw
  let signature ← adapter_sign state_root
  let msg : NewState :=
    { state_root := state_root, signature := signature,
      balances := new_accounting.balances }
  pure (msg, propagate msg)

/-! ## Claims C1 and C2 -/

/-- C1: the claim states that a Leader tick in which the latest Accounting
balances differ from the latest NewState balances returns a TickStatus with
new_state = Some(propagation results).  The code of leader::tick never
builds a NewState: every successful tick has new_state = None, whatever the
accounting says. -/
theorem leader_tick_new_state_is_always_none {E H P : Type}
    (heartbeat_result : Except E H) (st : TickStatus H P)
    (h : leader.tick heartbeat_result = Except.ok st) :
    st.new_state = none := by
  cases heartbeat_result with
  | ok hb =>
    simp only [leader.tick, bind, Except.bind, pure, Except.pure] at h
    cases h
    rfl
  | error e =>
    simp only [leader.tick, bind, Except.bind] at h
    exact Except.noConfusion h

/-- Witness for C1 at a concrete heartbeat outcome. -/
theorem leader_tick_new_state_is_always_none_witness :
    (⟨(0 : Nat), (none : Option (List Nat))⟩ : TickStatus Nat Nat).new_state = none :=
  leader_tick_new_state_is_always_none (E := Nat) (Except.ok 0) _ rfl

/-- C2: the claim states that the state_root of every NewState this
validator produces equals the Merkle root of the balances carried in that
same message.  The code of _on_new_accounting computes the root of
BalancesMap::default() — the empty map — while the message carries
new_accounting.balances, so the message commits to the wrong root whenever
the accounting balances are non-empty. -/
theorem on_new_accounting_roots_default_map {E : Type}
    (state_root_hash : BalancesMap → List Byte)
    (adapter_sign : String → Except E String)
    (propagate : NewState → List (PropagationResult Nat E))
    (new_accounting : AccountingResponse)
    (msg : NewState) (results : List (PropagationResult Nat E))
    (h : leader.on_new_accounting state_root_hash adapter_sign propagate
          new_accounting = Except.ok (msg, results)) :
    msg.state_root = hexEncode (state_root_hash []) ∧
      msg.balances = new_accounting.balances := by
  cases hsig : adapter_sign (hexEncode (state_root_hash [])) with
  | ok s =>
    simp only [leader.on_new_accounting, hsig, bind, Except.bind, pure, Except.pure] at h
    cases h
    exact ⟨rfl, rfl⟩
  | error e =>
    simp only [leader.on_new_accounting, hsig, bind, Except.bind] at h
    exact Except.noConfusion h

/-- Witness for C2: a concrete accounting with one non-empty balance entry,
a root function that can tell the empty map apart, and a trivial signer. -/
theorem on_new_accounting_roots_default_map_witness :
    (⟨"", "sig", [((1 : Nat), (100 : Nat))]⟩ : NewState).state_root
        = hexEncode ((fun (_ : BalancesMap) => ([] : List Byte)) []) ∧
      (⟨"", "sig", [((1 : Nat), (100 : Nat))]⟩ : NewState).balances
        = (⟨[((1 : Nat), (100 : Nat))]⟩ : AccountingResponse).balances :=
  on_new_accounting_roots_default_map (E := String)
    (fun _ => []) (fun _ => Except.ok "sig") (fun _ => [])
    ⟨[(1, 100)]⟩ ⟨"", "sig", [(1, 100)]⟩ [] rfl

/-! ## adapter/src/ethereum.rs

The EthereumAdapter.  External cryptography (keccak256, secp256k1 signing,
electrum signature re-encoding, address recovery) comes from the
tiny_keccak, ethstore and parity_crypto crates; each is passed in as an
explicit function parameter.  Strings in the embedding are compared and
measured as character lists; every string the adapter manipulates here is
ASCII, for which Rust byte indexing and length agree with the character
ones. -/

/-- Rust str::starts_with on character lists. -/
def listStartsWith : List Char → List Char → Bool
  | _, [] => true
  | [], _ :: _ => false
  | c :: cs, p :: ps => c == p && listStartsWith cs ps

/-- Rust str::starts_with (all strings involved are ASCII, so characters
and bytes coincide). -/
def strStartsWith (s pat : String) : Bool :=
  listStartsWith s.data pat.data

/-- Rust str::split on a one-character separator, over character lists:
separators delimit the groups, and empty groups are kept. -/
def splitOnChar (sep : Char) : List Char → List (List Char)
  | [] => [[]]
  | c :: cs =>
    if c == sep then [] :: splitOnChar sep cs
    else
      match splitOnChar sep cs with
      | [] => [[c]]
      | g :: gs => (c :: g) :: gs

/-- Rust token.split(full stop) collected to a vector of strings. -/
def strSplitDot (s : String) : List String :=
  (splitOnChar '.' s.data).map (fun l => ⟨l⟩)

/-- Rust byte slicing s[n..] on an ASCII string. -/
def strDrop (s : String) (n : Nat) : String :=
  ⟨s.data.drop n⟩

/-- Rust String::len on an ASCII string. -/
def strLen (s : String) : Nat :=
  s.data.length

/-- Error kinds of the adapter (primitives::adapter::AdapterError), with the
variants the adapter code constructs. -/
inductive AdapterError where
  | Authentication (msg : String)
  | Authorization (msg : String)
  | Configuration (msg : String)
  | Signature (msg : String)
  | InvalidChannel (msg : String)
  | Failed (msg : String)
deriving DecidableEq, Repr

/-- An unlocked keystore account (ethstore SafeAccount); its key material is
opaque to the adapter code. -/
structure SafeAccount where
  key : Nat
deriving DecidableEq, Repr

/-- The EthereumAdapter fields that sign and verify read: the 20-byte
identity, the keystore password, and the wallet, present only after
unlock. -/
structure EthereumAdapter where
  address : List Byte
  keystore_pwd : String
  wallet : Option SafeAccount
deriving DecidableEq, Repr

/-- UTF-8 bytes of an ASCII string (all strings hashed here are ASCII). -/
def stringBytes (s : String) : List Byte :=
  s.data.map Char.toNat

/-- Shallow embedding of hash_message (ethereum.rs lines 324-337): prefix
the message with the Ethereum signed-message header and its byte length,
then keccak256.  The message arrives as raw bytes because sign and verify
pass hex-decoded bytes through from_utf8_unchecked. -/
def hash_message (keccak : List Byte → List Byte) (message : List Byte) : List Byte :=
  keccak (stringBytes "\x19Ethereum Signed Message:\n"
    ++ stringBytes (toString message.length) ++ message)

/-- Shallow embedding of EthereumAdapter::sign (ethereum.rs lines 116-132).
wallet_sign is SafeAccount::sign (None models its failure) and to_electrum
is the electrum re-encoding of the produced signature; the final signature
is hex, 0x-prefixed. -/
def ethereum.sign (keccak : List Byte → List Byte)
    (wallet_sign : SafeAccount → String → List Byte → Option (List Byte))
    (to_electrum : List Byte → List Byte)
    (adapter : EthereumAdapter) (state_root : String) : Except AdapterError String :=
  match adapter.wallet with
  | some wallet =>
    match hexDecode state_root with
    | none => Except.error (AdapterError.Signature "invalid state_root")
    | some decoded =>
      let message := hash_message keccak decoded
      match wallet_sign wallet adapter.keystore_pwd message with
      | none => Except.error (AdapterError.Failed "failed to sign messages")
      | some wallet_signature =>
        Except.ok ("0x" ++ hexEncode (to_electrum wallet_signature))
  | none => Except.error (AdapterError.Configuration "Unlock the wallet before signing")

/-- Shallow embedding of EthereumAdapter::verify (ethereum.rs lines
134-147).  verify_address is parity_crypto verify_address; its error is
turned into Ok(false) by or_else, while the malformed-input paths before it
return Err. -/
def ethereum.verify (keccak : List Byte → List Byte)
    (verify_address : List Byte → List Byte → List Byte → Except Unit Bool)
    (from_electrum : List Byte → List Byte)
    (signer : List Byte) (state_root : String) (sig : String) :
    Except AdapterError Bool :=
  if ¬ strStartsWith sig "0x" then
    Except.error (AdapterError.Signature "not 0x prefixed hex")
  else
    match hexDecode (strDrop sig 2) with
    | none => Except.error (AdapterError.Signature "invalid signature")
    | some decoded_signature =>
      let address := signer
      let signature := from_electrum decoded_signature
      match hexDecode state_root with
      | none => Except.error (AdapterError.Signature "invalid state_root")
      | some decoded_root =>
        let message := hash_message keccak decoded_root
        match verify_address address signature message with
        | Except.ok b => Except.ok b
        | Except.error _ => Except.ok false

/-- EWT payload (ethereum.rs lines 344-351). -/
structure Payload where
  id : String
  era : Int
  address : String
  identity : Option (List Byte)
deriving DecidableEq, Repr

/-- Result of ewt_verify (ethereum.rs lines 353-357). -/
structure VerifyPayload where
  from_ : List Byte
  payload : Payload
deriving DecidableEq, Repr

/-- A Session as returned by session_from_token. -/
structure Session where
  era : Int
  uid : List Byte
deriving DecidableEq, Repr

/-- Shallow embedding of EthereumAdapter::session_from_token (ethereum.rs
lines 201-256).  ewt_verify_fn is the ewt_verify call on the three token
parts (its boxed error is stringified into AdapterError::Failed by
map_error) and has_privileges is the Identity Relayer query. -/
def ethereum.session_from_token (whoami_checksum : String)
    (ewt_verify_fn : String → String → String → Except String VerifyPayload)
    (has_privileges : List Byte → List Byte → Except AdapterError Bool)
    (token : String) : Except AdapterError Session :=
  if strLen token < 16 then Except.error (AdapterError.Failed "invalid token id")
  else
    let parts := strSplitDot token
    match parts.get? 0, parts.get? 1, parts.get? 2 with
    | some header_encoded, some payload_encoded, some token_encoded =>
      match ewt_verify_fn header_encoded payload_encoded token_encoded with
      | Except.error e => Except.error (AdapterError.Failed e)
      | Except.ok verified =>
        if whoami_checksum ≠ verified.payload.id then
          Except.error (AdapterError.Configuration
            "token payload.id !== whoami(): token was not intended for us")
        else
          match verified.payload.identity with
          | some identity =>
            match has_privileges verified.from_ identity with
            | Except.error e => Except.error e
            | Except.ok true =>
              Except.ok { era := verified.payload.era, uid := identity }
            | Except.ok false =>
              Except.error (AdapterError.Authorization "insufficient privilege")
          | none => Except.ok { era := verified.payload.era, uid := verified.from_ }
    | _, _, _ =>
      Except.error (AdapterError.Failed (token ++ " token string is incorrect"))

/-! ## Claims C3, C4 and C10 -/

/-- C3, counterexample: the claim states that verify returns without error
for every input, yielding false on malformed ones.  At a signature that is
not 0x-prefixed, and at one that is 0x-prefixed but not valid hex, verify
returns Err(AdapterError::Signature(..)) instead. -/
theorem verify_errors_on_malformed_signature :
    ethereum.verify id (fun _ _ _ => Except.ok true) id [] "00" "zz"
        = Except.error (AdapterError.Signature "not 0x prefixed hex") ∧
      ethereum.verify id (fun _ _ _ => Except.ok true) id [] "00" "0xgg"
        = Except.error (AdapterError.Signature "invalid signature") := by
  exact ⟨rfl, rfl⟩

/-- C3, amended: verify returns a Signature error when the signature is not
0x-prefixed, when its hex payload does not decode, or when the digest does
not decode; only a failing address recovery in verify_address is turned
into Ok(false). -/
theorem verify_malformed_errors_and_recovery_failure_is_false
    (keccak : List Byte → List Byte)
    (verify_address : List Byte → List Byte → List Byte → Except Unit Bool)
    (from_electrum : List Byte → List Byte)
    (signer : List Byte) (state_root sig : String) :
    (¬ strStartsWith sig "0x" →
      ethereum.verify keccak verify_address from_electrum signer state_root sig
        = Except.error (AdapterError.Signature "not 0x prefixed hex")) ∧
    (strStartsWith sig "0x" → hexDecode (strDrop sig 2) = none →
      ethereum.verify keccak verify_address from_electrum signer state_root sig
        = Except.error (AdapterError.Signature "invalid signature")) ∧
    (∀ ds, strStartsWith sig "0x" → hexDecode (strDrop sig 2) = some ds →
      hexDecode state_root = none →
      ethereum.verify keccak verify_address from_electrum signer state_root sig
        = Except.error (AdapterError.Signature "invalid state_root")) ∧
    (∀ ds dr e, strStartsWith sig "0x" → hexDecode (strDrop sig 2) = some ds →
      hexDecode state_root = some dr →
      verify_address signer (from_electrum ds) (hash_message keccak dr)
        = Except.error e →
      ethereum.verify keccak verify_address from_electrum signer state_root sig
        = Except.ok false) := by
  refine ⟨fun h => ?_, fun h hd => ?_, fun ds h hd hr => ?_, fun ds dr e h hd hr hv => ?_⟩
  · simp [ethereum.verify, h]
  · simp [ethereum.verify, h, hd]
  · simp [ethereum.verify, h, hd, hr]
  · simp [ethereum.verify, h, hd, hr, hv]

/-- Witness for the amended C3 at concrete inputs: a bad-hex 0x signature
gives the invalid-signature error, and a recovery failure gives Ok(false). -/
theorem verify_malformed_errors_and_recovery_failure_is_false_witness :
    (ethereum.verify id (fun _ _ _ => Except.ok true) id [] "00" "0xgg"
        = Except.error (AdapterError.Signature "invalid signature")) ∧
      (ethereum.verify id (fun _ _ _ => Except.error ()) id [] "00" "0x0a"
        = Except.ok false) :=
  ⟨(verify_malformed_errors_and_recovery_failure_is_false id
      (fun _ _ _ => Except.ok true) id [] "00" "0xgg").2.1
      (by decide) (by decide),
    ((verify_malformed_errors_and_recovery_failure_is_false id
      (fun _ _ _ => Except.error ()) id [] "00" "0x0a").2.2.2) [10] [0] ()
      (by decide) (by decide) (by decide) rfl⟩

/-- C4, counterexample: the claim states that session_from_token rejects
every token whose era is more than token_valid_until minutes in the past.
The code performs no era check at all — it has no access to the current
time or to token_valid_until — so a well-formed token whose era is 0,
arbitrarily far in the past, is accepted and its era merely copied into
the returned Session. -/
theorem session_from_token_accepts_arbitrarily_old_era :
    ethereum.session_from_token "0xWhoAmI"
      (fun _ _ _ => Except.ok ⟨[1], ⟨"0xWhoAmI", 0, "0xFrom", none⟩⟩)
      (fun _ _ => Except.ok false)
      "aaaaaa.bbbbbb.cccccc"
      = Except.ok ⟨0, [1]⟩ := by
  rfl

/-- C4, amended: session_from_token applies no era-freshness rule: whenever
the token is at least 16 characters, splits into three parts, and
ewt_verify accepts it with payload.id equal to whoami and no identity
field, the call succeeds for every era value, the era being copied
unchecked into the Session. -/
theorem session_from_token_has_no_era_check
    (whoami_checksum : String)
    (ewt_verify_fn : String → String → String → Except String VerifyPayload)
    (has_privileges : List Byte → List Byte → Except AdapterError Bool)
    (token header_encoded payload_encoded token_encoded : String)
    (vfrom : List Byte) (paddr : String) (era : Int)
    (hlen : ¬ strLen token < 16)
    (h0 : (strSplitDot token).get? 0 = some header_encoded)
    (h1 : (strSplitDot token).get? 1 = some payload_encoded)
    (h2 : (strSplitDot token).get? 2 = some token_encoded)
    (hv : ewt_verify_fn header_encoded payload_encoded token_encoded
        = Except.ok ⟨vfrom, ⟨whoami_checksum, era, paddr, none⟩⟩) :
    ethereum.session_from_token whoami_checksum ewt_verify_fn has_privileges token
      = Except.ok ⟨era, vfrom⟩ := by
  simp only [ethereum.session_from_token, hlen, if_false, h0, h1, h2, hv]
  simp

/-- Witness for the amended C4 at a concrete very old era. -/
theorem session_from_token_has_no_era_check_witness :
    ethereum.session_from_token "0xWhoAmI"
      (fun _ _ _ => Except.ok ⟨[2], ⟨"0xWhoAmI", -1000000, "0xFrom", none⟩⟩)
      (fun _ _ => Except.ok false)
      "aaaaaa.bbbbbb.cccccc"
      = Except.ok ⟨-1000000, [2]⟩ :=
  session_from_token_has_no_era_check "0xWhoAmI"
    (fun _ _ _ => Except.ok ⟨[2], ⟨"0xWhoAmI", -1000000, "0xFrom", none⟩⟩)
    (fun _ _ => Except.ok false)
    "aaaaaa.bbbbbb.cccccc" "aaaaaa" "bbbbbb" "cccccc"
    [2] "0xFrom" (-1000000)
    (by decide) (by decide) (by decide) (by decide) rfl

/-- C10: for every digest string that is not valid hexadecimal,
EthereumAdapter::sign fails with AdapterError::Signature("invalid
state_root") even when the wallet is unlocked: the digest is hex-decoded
before any hashing or signing happens. -/
theorem sign_rejects_non_hex_digest
    (keccak : List Byte → List Byte)
    (wallet_sign : SafeAccount → String → List Byte → Option (List Byte))
    (to_electrum : List Byte → List Byte)
    (adapter : EthereumAdapter) (w : SafeAccount)
    (hw : adapter.wallet = some w)
    (digest : String) (hhex : hexDecode digest = none) :
    ethereum.sign keccak wallet_sign to_electrum adapter digest
      = Except.error (AdapterError.Signature "invalid state_root") := by
  simp [ethereum.sign, hw, hhex]

/-- Witness for C10: an unlocked adapter refuses the digest zz. -/
theorem sign_rejects_non_hex_digest_witness :
    ethereum.sign id (fun _ _ _ => none) id
      ⟨[], "pwd", some ⟨0⟩⟩ "zz"
      = Except.error (AdapterError.Signature "invalid state_root") :=
  sign_rejects_non_hex_digest id (fun _ _ _ => none) id
    ⟨[], "pwd", some ⟨0⟩⟩ ⟨0⟩ rfl "zz" (by decide)

/-! ## validator_worker/src/main.rs: the per-channel driver -/

/-- The validator_worker error (error.rs is not among the sources; its
Failed variant is the one main.rs constructs). -/
inductive ValidatorWorkerError where
  | Failed (msg : String)
deriving DecidableEq, Repr

/-- A validator entry of a channel spec (primitives ValidatorDesc),
reduced to the identity the driver compares against. -/
structure ValidatorDesc where
  id : Nat
deriving DecidableEq, Repr

/-- The two validators of a channel spec. -/
structure SpecValidators where
  leader : ValidatorDesc
  follower : ValidatorDesc
deriving DecidableEq, Repr

/-- Role lookup result (primitives SpecValidator), matched by main.rs. -/
inductive SpecValidator where
  | Leader (v : ValidatorDesc)
  | Follower (v : ValidatorDesc)
  | None
deriving DecidableEq, Repr

/-- Modelled from the spec: SpecValidators::find (primitives channel.rs is
not among the sources); per spec section 4.7 the role is Leader when
whoami is the leader entry, Follower when it is the follower entry, and
None otherwise. -/
def SpecValidators.find (vs : SpecValidators) (whoami : Nat) : SpecValidator :=
  if vs.leader.id = whoami then SpecValidator.Leader vs.leader
  else if vs.follower.id = whoami then SpecValidator.Follower vs.follower
  else SpecValidator.None

/-- A channel, reduced to the spec fields the driver reads. -/
structure ChannelSpec where
  validators : SpecValidators
deriving DecidableEq, Repr

/-- A channel. -/
structure Channel where
  spec : ChannelSpec
deriving DecidableEq, Repr

/-- Shallow embedding of validator_tick (main.rs lines 190-229).
sentry_init is the result of SentryApi::init; leader_tick and
follower_tick are the resolved outcomes of the corresponding tick wrapped
in the validator_tick_timeout (an error covers both a failed and a
timed-out tick, stringified by e.to_string()). -/
def validator_tick (sentry_init : Except ValidatorWorkerError Unit)
    (channel : Channel) (whoami : Nat)
    (leader_tick follower_tick : Except String Unit) :
    Except ValidatorWorkerError Unit := do
  let _sentry ← sentry_init
  match channel.spec.validators.find whoami with
  | SpecValidator.Leader _ =>
    match leader_tick with
    | Except.error e => Except.error (ValidatorWorkerError.Failed e)
    | Except.ok _ => Except.ok ()
  | SpecValidator.Follower _ =>
    match follower_tick with
    | Except.error e => Except.error (ValidatorWorkerError.Failed e)
    | Except.ok _ => Except.ok ()
  | SpecValidator.None =>
    Except.error (ValidatorWorkerError.Failed
      "validatorTick: processing a channel where we are not validating")

/-- Shallow embedding of the aggregation step of iterate_channels
(main.rs lines 171-175): the per-channel validator_tick futures are
combined with try_join_all, whose error — if any — is the single thing the
iteration then logs. -/
def iterate_channels_tick (channels : List Channel)
    (tick_of : Channel → Except ValidatorWorkerError Unit) :
    Except ValidatorWorkerError (List Unit) :=
  tryJoinAll (channels.map tick_of)

/-! ## Claims C5 and C6 -/

/-- C5, counterexample: the claim states that when one channel tick fails,
the driver still completes every other channel tick in the iteration with
unchanged outcomes.  Aggregating with try_join_all, a failing first
channel makes the whole iteration aggregate resolve to that error: the
succeeding second channel's outcome is dropped from the result (and its
still-pending future would be cancelled). -/
theorem iterate_channels_drops_sibling_outcomes_on_error :
    iterate_channels_tick [⟨⟨⟨⟨1⟩, ⟨2⟩⟩⟩⟩, ⟨⟨⟨⟨3⟩, ⟨4⟩⟩⟩⟩]
      (fun c => if c.spec.validators.leader.id = 1
        then Except.error (ValidatorWorkerError.Failed "tick failed")
        else Except.ok ())
      = Except.error (ValidatorWorkerError.Failed "tick failed") := by
  rfl

/-- C5, amended: iterate_channels aggregates the per-channel ticks with
try_join_all, so the first failing tick's error becomes the outcome of the
whole aggregate whatever the outcomes of the channels after it, and that
single error is all the iteration logs; only when no tick fails does every
channel contribute its outcome. -/
theorem iterate_channels_first_error_wins
    (pre : List Channel) (c : Channel) (post : List Channel)
    (tick_of : Channel → Except ValidatorWorkerError Unit)
    (e : ValidatorWorkerError)
    (hpre : ∀ d ∈ pre, tick_of d = Except.ok ())
    (hc : tick_of c = Except.error e) :
    iterate_channels_tick (pre ++ c :: post) tick_of = Except.error e := by
  have hmap : ∀ x ∈ pre.map tick_of, ∃ a, x = Except.ok a := by
    intro x hx
    obtain ⟨d, hd, rfl⟩ := List.mem_map.mp hx
    exact ⟨(), hpre d hd⟩
  calc iterate_channels_tick (pre ++ c :: post) tick_of
      = tryJoinAll (pre.map tick_of ++ Except.error e :: post.map tick_of) := by
        simp only [iterate_channels_tick, List.map_append, List.map_cons, hc]
    _ = Except.error e := tryJoinAll_error_after_oks _ e _ hmap

/-- Witness for the amended C5: one succeeding channel before and one
after the failing one. -/
theorem iterate_channels_first_error_wins_witness :
    iterate_channels_tick [⟨⟨⟨⟨1⟩, ⟨2⟩⟩⟩⟩, ⟨⟨⟨⟨3⟩, ⟨4⟩⟩⟩⟩, ⟨⟨⟨⟨5⟩, ⟨6⟩⟩⟩⟩]
      (fun c => if c.spec.validators.leader.id = 3
        then Except.error (ValidatorWorkerError.Failed "timed out")
        else Except.ok ())
      = Except.error (ValidatorWorkerError.Failed "timed out") :=
  iterate_channels_first_error_wins [⟨⟨⟨⟨1⟩, ⟨2⟩⟩⟩⟩] ⟨⟨⟨⟨3⟩, ⟨4⟩⟩⟩⟩ [⟨⟨⟨⟨5⟩, ⟨6⟩⟩⟩⟩]
      (fun c => if c.spec.validators.leader.id = 3
        then Except.error (ValidatorWorkerError.Failed "timed out")
        else Except.ok ())
      (ValidatorWorkerError.Failed "timed out")
      (by intro d hd; simp only [List.mem_singleton] at hd; subst hd; rfl) rfl

/-- C6, counterexample: the claim states that a channel in which this node
is neither Leader nor Follower is skipped without being treated as an
error.  validator_tick instead returns
ValidatorWorkerError::Failed("validatorTick: processing a channel where we
are not validating"), an error the try_join_all aggregation then
propagates. -/
theorem validator_tick_errors_when_not_validating :
    validator_tick (Except.ok ()) ⟨⟨⟨⟨1⟩, ⟨2⟩⟩⟩⟩ 3 (Except.ok ()) (Except.ok ())
      = Except.error (ValidatorWorkerError.Failed
          "validatorTick: processing a channel where we are not validating") := by
  rfl

/-- C6, amended: for every channel whose role lookup yields None,
validator_tick returns the Failed error above (rather than an ok skip),
whatever the tick outcomes would have been. -/
theorem validator_tick_none_role_is_error
    (channel : Channel) (whoami : Nat)
    (leader_tick follower_tick : Except String Unit)
    (hrole : channel.spec.validators.find whoami = SpecValidator.None) :
    validator_tick (Except.ok ()) channel whoami leader_tick follower_tick
      = Except.error (ValidatorWorkerError.Failed
          "validatorTick: processing a channel where we are not validating") := by
  simp only [validator_tick, bind, Except.bind, hrole]

/-- Witness for the amended C6 at a concrete channel and identity. -/
theorem validator_tick_none_role_is_error_witness :
    validator_tick (Except.ok ()) ⟨⟨⟨⟨7⟩, ⟨8⟩⟩⟩⟩ 9 (Except.ok ()) (Except.ok ())
      = Except.error (ValidatorWorkerError.Failed
          "validatorTick: processing a channel where we are not validating") :=
  validator_tick_none_role_is_error ⟨⟨⟨⟨7⟩, ⟨8⟩⟩⟩⟩ 9 (Except.ok ()) (Except.ok ())
    (by decide)

/-! ## validator_worker/src/sentry_interface.rs -/

/-- A validator entry of the propagation list: Sentry url and auth token. -/
structure SentryValidator where
  url : String
  token : String
deriving DecidableEq, Repr

/-- Shallow embedding of propagate_to (sentry_interface.rs lines 256-284).
deliver stands for the POST of the messages to this validator followed by
parsing the SuccessResponse; both of its failure points are mapped to
Err((validator_id, Error::Request)) and success yields Ok(validator_id).
The channel and messages do not influence the shape of the result and are
folded into deliver. -/
def propagate_to {E : Type} (deliver : Nat → SentryValidator → Except E Unit)
    (validator_id : Nat) (validator : SentryValidator) : PropagationResult Nat E :=
  match deliver validator_id validator with
  | Except.error e => Except.error (validator_id, e)
  | Except.ok _ => Except.ok validator_id

/-- Shallow embedding of SentryApi::propagate (sentry_interface.rs lines
88-103): a join_all over propagate_to applied to every entry of the
propagation list, so every target contributes exactly one outcome. -/
def SentryApi.propagate {E : Type}
    (propagation_list : List (Nat × SentryValidator))
    (deliver : Nat → SentryValidator → Except E Unit) :
    List (PropagationResult Nat E) :=
  joinAll (propagation_list.map (fun p => propagate_to deliver p.1 p.2))

/-! ## Claim C7 -/

/-- C7: propagate returns exactly one PropagationResult per configured
target — Ok(validator_id) on success and Err((validator_id, error)) on
failure — and the outcome at each position depends only on that target's
own delivery: a failure at one target neither cancels nor alters the
others (join_all, not try_join_all). -/
theorem propagate_one_result_per_target_and_isolated {E : Type}
    (targets : List (Nat × SentryValidator))
    (deliver deliver' : Nat → SentryValidator → Except E Unit) :
    (SentryApi.propagate targets deliver).length = targets.length ∧
    (∀ t ∈ targets, deliver t.1 t.2 = Except.ok () →
      Except.ok t.1 ∈ SentryApi.propagate targets deliver) ∧
    (∀ t ∈ targets, ∀ e, deliver t.1 t.2 = Except.error e →
      Except.error (t.1, e) ∈ SentryApi.propagate targets deliver) ∧
    (∀ i (h₁ : i < (SentryApi.propagate targets deliver).length)
        (h₂ : i < (SentryApi.propagate targets deliver').length)
        (ht : i < targets.length),
      deliver (targets.get ⟨i, ht⟩).1 (targets.get ⟨i, ht⟩).2
          = deliver' (targets.get ⟨i, ht⟩).1 (targets.get ⟨i, ht⟩).2 →
      (SentryApi.propagate targets deliver).get ⟨i, h₁⟩
        = (SentryApi.propagate targets deliver').get ⟨i, h₂⟩) := by
  refine ⟨?_, ?_, ?_, ?_⟩
  · simp [SentryApi.propagate, joinAll]
  · intro t ht hok
    simp only [SentryApi.propagate, joinAll, List.mem_map]
    exact ⟨t, ht, by simp [propagate_to, hok]⟩
  · intro t ht e herr
    simp only [SentryApi.propagate, joinAll, List.mem_map]
    exact ⟨t, ht, by simp [propagate_to, herr]⟩
  · intro i h₁ h₂ ht hagree
    simp only [SentryApi.propagate, joinAll, List.get_eq_getElem, List.getElem_map]
    simp only [propagate_to, List.get_eq_getElem] at hagree ⊢
    rw [hagree]

/-- Witness for C7: two targets, the first failing and the second
succeeding; the failure is reported for the first and the second still
gets its own success result, unchanged from an all-success delivery. -/
theorem propagate_one_result_per_target_and_isolated_witness :
    (SentryApi.propagate [(1, ⟨"u1", "t1"⟩), (2, ⟨"u2", "t2"⟩)]
        (fun v _ => if v = 1 then Except.error "request failed" else Except.ok ())).length
      = 2 ∧
    Except.error ((1 : Nat), "request failed")
      ∈ SentryApi.propagate [(1, ⟨"u1", "t1"⟩), (2, ⟨"u2", "t2"⟩)]
          (fun v _ => if v = 1 then Except.error "request failed" else Except.ok ()) ∧
    Except.ok (2 : Nat)
      ∈ SentryApi.propagate [(1, ⟨"u1", "t1"⟩), (2, ⟨"u2", "t2"⟩)]
          (fun v _ => if v = 1 then Except.error "request failed" else Except.ok ()) ∧
    (SentryApi.propagate [(1, ⟨"u1", "t1"⟩), (2, ⟨"u2", "t2"⟩)]
        (fun v _ => if v = 1 then Except.error "request failed" else Except.ok ())).get
        ⟨1, by decide⟩
      = (SentryApi.propagate [(1, ⟨"u1", "t1"⟩), (2, ⟨"u2", "t2"⟩)]
          (fun _ _ => Except.ok ())).get ⟨1, by decide⟩ := by
  have h := propagate_one_result_per_target_and_isolated
    [((1 : Nat), (⟨"u1", "t1"⟩ : SentryValidator)), (2, ⟨"u2", "t2"⟩)]
    (fun v _ => if v = 1 then Except.error "request failed" else Except.ok ())
    (fun _ _ => Except.ok ())
  refine ⟨h.1, ?_, ?_, ?_⟩
  · exact h.2.2.1 (1, ⟨"u1", "t1"⟩) (by decide) "request failed" rfl
  · exact h.2.1 (2, ⟨"u2", "t2"⟩) (by decide) rfl
  · exact h.2.2.2 1 (by decide) (by decide) (by decide) rfl

/-! ## sentry_interface.rs: all spenders -/

/-- Pagination envelope (primitives sentry Pagination). -/
structure Pagination where
  page : Nat
  total_pages : Nat
deriving DecidableEq, Repr

/-- A Spender entry (primitives::spender::Spender): the deposited total,
and the spender leaf when present. -/
structure Spender where
  total_deposited : Nat
  spender_leaf : Option Nat
deriving DecidableEq, Repr

/-- Response of one spender/all page: the page's spenders map, as an
association list, and the pagination envelope. -/
structure AllSpendersResponse where
  spenders : List (Nat × Spender)
  pagination : Pagination
deriving DecidableEq, Repr

/-- Shallow embedding of get_all_spenders (sentry_interface.rs lines
186-207).  fetch_page is get_spenders_page (lines 165-184), a GET of
spender/all?page=i.  Page 0 is fetched first; when its envelope says fewer
than two pages its spenders are the result, otherwise pages
1..total_pages-1 are fetched with try_join_all and all pages' spenders are
flat-mapped together (the HashMap collect is kept as the concatenated
association list). -/
def get_all_spenders {E : Type} (fetch_page : Nat → Except E AllSpendersResponse) :
    Except E (List (Nat × Spender)) := do
  let first_page ← fetch_page 0
  if first_page.pagination.total_pages < 2 then
    pure first_page.spenders
  else do
    let all ← tryJoinAll ((List.range' 1 (first_page.pagination.total_pages - 1)).map fetch_page)
    pure (((first_page :: all).map (fun p => p.spenders)).flatten)

/-! ## Claim C8 -/

/-- A try_join_all in which every fetch succeeds collects the pages in
order. -/
theorem tryJoinAll_all_ok {ε α β : Type}
    (l : List β) (f : β → Except ε α) (g : β → α)
    (h : ∀ i ∈ l, f i = Except.ok (g i)) :
    tryJoinAll (l.map f) = Except.ok (l.map g) := by
  induction l with
  | nil => rfl
  | cons x xs ih =>
    have hx := h x (List.mem_cons_self x xs)
    have htail := ih (fun y hy => h y (List.mem_cons_of_mem _ hy))
    simp only [List.map_cons, tryJoinAll, bind, Except.bind, hx, htail]
    rfl

/-- C8: for every channel whose page 0 reports total_pages = n (with at
least one page), get_all_spenders returns the concatenation — the union,
as an association list — of the spenders of pages 0..n-1, page 0 fetched
first and the remaining pages appended in order. -/
theorem get_all_spenders_unions_pages {E : Type}
    (fetch_page : Nat → Except E AllSpendersResponse)
    (pages : Nat → AllSpendersResponse) (n : Nat)
    (hn : 1 ≤ n)
    (hfetch : ∀ i, i < n → fetch_page i = Except.ok (pages i))
    (htotal : (pages 0).pagination.total_pages = n) :
    get_all_spenders fetch_page
      = Except.ok (((List.range n).map (fun i => (pages i).spenders)).flatten) := by
  have h0 : fetch_page 0 = Except.ok (pages 0) := hfetch 0 hn
  by_cases hsmall : n < 2
  · have hn1 : n = 1 := le_antisymm (Nat.lt_succ_iff.mp hsmall) hn
    subst hn1
    simp only [get_all_spenders, h0, bind, Except.bind, htotal]
    norm_num
    simp [pure, Except.pure, show List.range 1 = [0] from rfl]
  · have hrange : ∀ i ∈ List.range' 1 (n - 1), fetch_page i = Except.ok (pages i) := by
      intro i hi
      obtain ⟨hi1, hi2⟩ := List.mem_range'_1.mp hi
      exact hfetch i (by omega)
    have hjoin := tryJoinAll_all_ok (List.range' 1 (n - 1)) fetch_page pages hrange
    simp only [get_all_spenders, h0, bind, Except.bind, htotal, if_neg hsmall, hjoin]
    have hsplit : List.range n = 0 :: List.range' 1 (n - 1) := by
      rw [List.range_eq_range']
      obtain ⟨m, rfl⟩ : ∃ m, n = m + 1 := ⟨n - 1, by omega⟩
      rw [List.range'_succ]
      simp
    rw [hsplit]
    simp only [List.map_cons, List.flatten_cons, pure, Except.pure, List.map_map]
    rfl

/-- Witness for C8, with the shape of the crate's own pagination test:
three pages holding two, two and one spenders. -/
theorem get_all_spenders_unions_pages_witness :
    get_all_spenders (E := Unit)
      (fun i =>
        if i < 3 then
          Except.ok (if i = 0 then ⟨[(10, ⟨100, none⟩), (11, ⟨100, none⟩)], ⟨0, 3⟩⟩
            else if i = 1 then ⟨[(12, ⟨100, none⟩), (13, ⟨100, none⟩)], ⟨1, 3⟩⟩
            else ⟨[(14, ⟨100, none⟩)], ⟨2, 3⟩⟩)
        else Except.error ())
      = Except.ok [(10, ⟨100, none⟩), (11, ⟨100, none⟩), (12, ⟨100, none⟩),
          (13, ⟨100, none⟩), (14, ⟨100, none⟩)] := by
  have h := get_all_spenders_unions_pages (E := Unit)
    (fun i =>
      if i < 3 then
        Except.ok (if i = 0 then ⟨[(10, ⟨100, none⟩), (11, ⟨100, none⟩)], ⟨0, 3⟩⟩
          else if i = 1 then ⟨[(12, ⟨100, none⟩), (13, ⟨100, none⟩)], ⟨1, 3⟩⟩
          else ⟨[(14, ⟨100, none⟩)], ⟨2, 3⟩⟩)
      else Except.error ())
    (fun i =>
      if i = 0 then ⟨[(10, ⟨100, none⟩), (11, ⟨100, none⟩)], ⟨0, 3⟩⟩
      else if i = 1 then ⟨[(12, ⟨100, none⟩), (13, ⟨100, none⟩)], ⟨1, 3⟩⟩
      else ⟨[(14, ⟨100, none⟩)], ⟨2, 3⟩⟩)
    3 (by omega) (by intro i hi; simp [hi]) rfl
  rw [h]
  rfl

/-! ## adapter/src/ethereum.rs: Ethereum Web Tokens (get_auth, ewt_sign,
ewt_verify)

The token pipeline glues several libraries together: serde_json, base64
(URL_SAFE_NO_PAD), the hex crate, keccak256 and secp256k1
sign/recover.  The glue is embedded faithfully; each library function is a
parameter, and the round-trip theorem assumes exactly the documented
contract of each at the point where the code uses it. -/

/-- hexDigitVal inverts hexDigitChar on digit values. -/
theorem hexDigitVal_hexDigitChar (n : Nat) (h : n < 16) :
    hexDigitVal (hexDigitChar n) = some n := by
  interval_cases n <;> decide

/-- hex::decode inverts hex::encode on byte lists. -/
theorem hexDecode_hexEncode (bs : List Byte) (h : ∀ b ∈ bs, b < 256) :
    hexDecode (hexEncode bs) = some bs := by
  induction bs with
  | nil => rfl
  | cons b rest ih =>
    have hb : b < 256 := h b (List.mem_cons_self b rest)
    have h1 : hexDigitVal (hexDigitChar (b / 16)) = some (b / 16) :=
      hexDigitVal_hexDigitChar _ (Nat.div_lt_of_lt_mul (show b < 16 * 16 from hb))
    have h2 : hexDigitVal (hexDigitChar (b % 16)) = some (b % 16) :=
      hexDigitVal_hexDigitChar _ (Nat.mod_lt _ (by norm_num))
    have ihr := ih (fun x hx => h x (List.mem_cons_of_mem _ hx))
    simp only [hexDecode, hexEncode] at ihr ⊢
    simp only [hexEncodeList, hexDecodeList, h1, h2, ihr]
    rw [Nat.div_add_mod' b 16]

/-- Splitting at a separator that does not occur in the first group peels
that group off. -/
theorem splitOnChar_append_sep (sep : Char) (xs rest : List Char) (h : sep ∉ xs) :
    splitOnChar sep (xs ++ sep :: rest) = xs :: splitOnChar sep rest := by
  induction xs with
  | nil => simp [splitOnChar]
  | cons c cs ih =>
    have hcne : c ≠ sep := fun hcc => h (List.mem_cons.mpr (Or.inl hcc.symm))
    have hc : (c == sep) = false := beq_eq_false_iff_ne.mpr hcne
    have ihr := ih (fun hx => h (List.mem_cons_of_mem _ hx))
    simp only [List.cons_append, splitOnChar, hc, Bool.false_eq_true, if_false,
      List.append_eq, ihr]

/-- Splitting a separator-free list yields that single group. -/
theorem splitOnChar_no_sep (sep : Char) (xs : List Char) (h : sep ∉ xs) :
    splitOnChar sep xs = [xs] := by
  induction xs with
  | nil => rfl
  | cons c cs ih =>
    have hcne : c ≠ sep := fun hcc => h (List.mem_cons.mpr (Or.inl hcc.symm))
    have hc : (c == sep) = false := beq_eq_false_iff_ne.mpr hcne
    have ihr := ih (fun hx => h (List.mem_cons_of_mem _ hx))
    simp only [splitOnChar, hc, Bool.false_eq_true, if_false, ihr]

/-- A dot-joined token of three dot-free parts splits into exactly those
three parts. -/
theorem strSplitDot_three (a b c : String)
    (ha : '.' ∉ a.data) (hb : '.' ∉ b.data) (hc : '.' ∉ c.data) :
    strSplitDot (a ++ "." ++ b ++ "." ++ c) = [a, b, c] := by
  have hdata : (a ++ "." ++ b ++ "." ++ c).data
      = a.data ++ '.' :: (b.data ++ '.' :: c.data) := by
    simp [String.data_append, List.append_assoc]
  simp only [strSplitDot, hdata, splitOnChar_append_sep _ _ _ ha,
    splitOnChar_append_sep _ _ _ hb, splitOnChar_no_sep _ _ hc,
    List.map_cons, List.map_nil]

/-- The serde_json string of the fixed Header with type JWT and alg ETH
(ethereum.rs lines 359-364 and 371-377). -/
def header_json : String := "\x7b\"type\":\"JWT\",\"alg\":\"ETH\"\x7d"

/-- String::from_utf8 restricted to the ASCII range these tokens use. -/
def bytesToString (bs : List Byte) : Except String String :=
  if bs.all (fun b => decide (b < 128)) then Except.ok ⟨bs.map Char.ofNat⟩
  else Except.error "invalid utf8"

/-- String::from_utf8 inverts the byte view of an ASCII string. -/
theorem bytesToString_stringBytes (s : String) (h : ∀ c ∈ s.data, c.toNat < 128) :
    bytesToString (stringBytes s) = Except.ok s := by
  have hall : (stringBytes s).all (fun b => decide (b < 128)) = true := by
    simp only [stringBytes, List.all_eq_true, decide_eq_true_eq]
    intro x hx
    obtain ⟨c, hc, rfl⟩ := List.mem_map.mp hx
    exact h c hc
  simp only [bytesToString, hall, if_true]
  have hmap : (stringBytes s).map Char.ofNat = s.data := by
    simp only [stringBytes]
    rw [List.map_map]
    have hcongr := List.map_congr_left (l := s.data)
      (f := Char.ofNat ∘ Char.toNat) (g := id)
      (fun c _ => Char.ofNat_toNat c)
    rw [hcongr, List.map_id]
  rw [hmap]

/-- Shallow embedding of ewt_sign (ethereum.rs lines 366-397): base64url
the header and payload JSON, hash the dot-joined pair with hash_message,
sign (sign_electrum covers SafeAccount::sign composed with into_electrum),
then base64url the signature bytes — which the code obtains by hex-decoding
the signature's hex display, kept here verbatim. -/
def ewt_sign (b64encode : List Byte → String)
    (json_payload : Payload → String)
    (keccak : List Byte → List Byte)
    (sign_electrum : SafeAccount → String → List Byte → Except String (List Byte))
    (signer : SafeAccount) (password : String) (payload : Payload) :
    Except String String := do
  let header_encoded := b64encode (stringBytes header_json)
  let payload_encoded := b64encode (stringBytes (json_payload payload))
  let message := hash_message keccak
    (stringBytes (header_encoded ++ "." ++ payload_encoded))
  let signature ← sign_electrum signer password message
  let token ←
    match hexDecode (hexEncode signature) with
    | none => Except.error "invalid hex"
    | some sig_bytes => Except.ok (b64encode sig_bytes)
  pure (header_encoded ++ "." ++ payload_encoded ++ "." ++ token)

/-- Shallow embedding of ewt_verify (ethereum.rs lines 399-426): rebuild
the signed message from the two encoded parts, base64url-decode the
signature, recover the public key (recover; from_electrum re-encodes the
signature first), take its address (public_to_address), then decode and
parse the payload. -/
def ewt_verify (b64decode : String → Except String (List Byte))
    (parse_payload : String → Except String Payload)
    (keccak : List Byte → List Byte)
    (from_electrum : List Byte → List Byte)
    (recover : List Byte → List Byte → Except String (List Byte))
    (public_to_address : List Byte → List Byte)
    (header_encoded payload_encoded token : String) :
    Except String VerifyPayload := do
  let message := hash_message keccak
    (stringBytes (header_encoded ++ "." ++ payload_encoded))
  let decoded_signature ← b64decode token
  let signature := from_electrum decoded_signature
  let pubkey ← recover signature message
  let address := public_to_address pubkey
  let payload_bytes ← b64decode payload_encoded
  let payload_string ← bytesToString payload_bytes
  let payload ← parse_payload payload_string
  pure { from_ := address, payload := payload }

/-- The payload get_auth builds (ethereum.rs lines 264-270): the audience
checksum as id, the minute epoch floor(now_ms/60000) as era, no identity,
and the adapter's own checksum address.  The f64 division and floor of the
millisecond clock are exact for realistic clock values and are modelled by
integer floor division. -/
def auth_payload (to_checksum : List Byte → String)
    (adapter : EthereumAdapter) (validator : List Byte) (now_ms : Int) : Payload :=
  { id := to_checksum validator, era := Int.fdiv now_ms 60000,
    address := to_checksum adapter.address, identity := none }

/-- Shallow embedding of get_auth (ethereum.rs lines 258-274): requires the
unlocked wallet, builds the auth payload and signs it with ewt_sign;
to_checksum stands for ToETHChecksum::to_checksum (the eth_checksum module
is not among the sources). -/
def ethereum.get_auth (to_checksum : List Byte → String)
    (b64encode : List Byte → String)
    (json_payload : Payload → String)
    (keccak : List Byte → List Byte)
    (sign_electrum : SafeAccount → String → List Byte → Except String (List Byte))
    (adapter : EthereumAdapter) (validator : List Byte) (now_ms : Int) :
    Except AdapterError String :=
  match adapter.wallet with
  | none => Except.error (AdapterError.Configuration "unlock wallet")
  | some wallet =>
    match ewt_sign b64encode json_payload keccak sign_electrum wallet
        adapter.keystore_pwd (auth_payload to_checksum adapter validator now_ms) with
    | Except.error _ => Except.error (AdapterError.Failed "Failed to sign token")
    | Except.ok token => Except.ok token

/-! ## Claim C9 -/

/-- C9: a token minted by an unlocked adapter's get_auth for audience X at
millisecond clock now_ms is the dot-joining of three dot-free parts that
ewt_verify accepts, recovering from = whoami and a payload whose id is X's
checksum and whose era is the minute epoch floor(now_ms/60000) — assuming
the documented contract of each external library at the point the code
uses it: the base64url codec decodes what it encoded and emits no dot, the
JSON codec parses what it serialized and emits ASCII, and secp256k1
recovery yields the signing wallet's public key, whose address is the
adapter identity. -/
theorem ewt_token_round_trip
    (to_checksum : List Byte → String)
    (b64encode : List Byte → String)
    (b64decode : String → Except String (List Byte))
    (json_payload : Payload → String)
    (parse_payload : String → Except String Payload)
    (keccak : List Byte → List Byte)
    (sign_electrum : SafeAccount → String → List Byte → Except String (List Byte))
    (from_electrum : List Byte → List Byte)
    (recover : List Byte → List Byte → Except String (List Byte))
    (public_to_address : List Byte → List Byte)
    (adapter : EthereumAdapter) (wallet : SafeAccount)
    (audience : List Byte) (now_ms : Int)
    (sig pubkey : List Byte)
    (hw : adapter.wallet = some wallet)
    (hsig : sign_electrum wallet adapter.keystore_pwd
        (hash_message keccak (stringBytes
          (b64encode (stringBytes header_json) ++ "." ++
            b64encode (stringBytes (json_payload
              (auth_payload to_checksum adapter audience now_ms))))))
      = Except.ok sig)
    (hsig_bytes : ∀ b ∈ sig, b < 256)
    (hdec_sig : b64decode (b64encode sig) = Except.ok sig)
    (hdec_payload : b64decode (b64encode (stringBytes (json_payload
        (auth_payload to_checksum adapter audience now_ms))))
      = Except.ok (stringBytes (json_payload
          (auth_payload to_checksum adapter audience now_ms))))
    (hascii : ∀ c ∈ (json_payload
        (auth_payload to_checksum adapter audience now_ms)).data, c.toNat < 128)
    (hparse : parse_payload (json_payload
        (auth_payload to_checksum adapter audience now_ms))
      = Except.ok (auth_payload to_checksum adapter audience now_ms))
    (hrecover : recover (from_electrum sig)
        (hash_message keccak (stringBytes
          (b64encode (stringBytes header_json) ++ "." ++
            b64encode (stringBytes (json_payload
              (auth_payload to_checksum adapter audience now_ms))))))
      = Except.ok pubkey)
    (haddr : public_to_address pubkey = adapter.address)
    (hnd_h : '.' ∉ (b64encode (stringBytes header_json)).data)
    (hnd_p : '.' ∉ (b64encode (stringBytes (json_payload
        (auth_payload to_checksum adapter audience now_ms)))).data)
    (hnd_s : '.' ∉ (b64encode sig).data) :
    ethereum.get_auth to_checksum b64encode json_payload keccak sign_electrum
        adapter audience now_ms
      = Except.ok (b64encode (stringBytes header_json) ++ "." ++
          b64encode (stringBytes (json_payload
            (auth_payload to_checksum adapter audience now_ms))) ++ "." ++
          b64encode sig) ∧
    strSplitDot (b64encode (stringBytes header_json) ++ "." ++
        b64encode (stringBytes (json_payload
          (auth_payload to_checksum adapter audience now_ms))) ++ "." ++
        b64encode sig)
      = [b64encode (stringBytes header_json),
          b64encode (stringBytes (json_payload
            (auth_payload to_checksum adapter audience now_ms))),
          b64encode sig] ∧
    ewt_verify b64decode parse_payload keccak from_electrum recover
        public_to_address
        (b64encode (stringBytes header_json))
        (b64encode (stringBytes (json_payload
          (auth_payload to_checksum adapter audience now_ms))))
        (b64encode sig)
      = Except.ok ⟨adapter.address,
          auth_payload to_checksum adapter audience now_ms⟩ ∧
    (auth_payload to_checksum adapter audience now_ms).id
      = to_checksum audience ∧
    (auth_payload to_checksum adapter audience now_ms).era
      = Int.fdiv now_ms 60000 := by
  have hsign : ewt_sign b64encode json_payload keccak sign_electrum wallet
      adapter.keystore_pwd (auth_payload to_checksum adapter audience now_ms)
      = Except.ok (b64encode (stringBytes header_json) ++ "." ++
          b64encode (stringBytes (json_payload
            (auth_payload to_checksum adapter audience now_ms))) ++ "." ++
          b64encode sig) := by
    simp only [ewt_sign, bind, Except.bind, hsig,
      hexDecode_hexEncode sig hsig_bytes, pure, Except.pure]
  refine ⟨?_, ?_, ?_, rfl, rfl⟩
  · simp only [ethereum.get_auth, hw, hsign]
  · exact strSplitDot_three _ _ _ hnd_h hnd_p hnd_s
  · simp only [ewt_verify, bind, Except.bind, hdec_sig, hrecover, hdec_payload,
      bytesToString_stringBytes _ hascii, hparse, haddr, pure, Except.pure]

/-- Witness for C9: a concrete adapter (address aa hex, unlocked), audience
0b hex, clock 120000 ms (era 2), with the hex codec standing in for
base64url, a concrete JSON codec and a toy signature scheme satisfying the
recovery contract at the used points. -/
theorem ewt_token_round_trip_witness :
    ethereum.get_auth hexEncode hexEncode (fun p => p.id ++ "-" ++ p.address) id
        (fun _ _ _ => Except.ok [1, 2]) ⟨[170], "pwd", some ⟨1⟩⟩ [11] 120000
      = Except.ok (hexEncode (stringBytes header_json) ++ "." ++
          hexEncode (stringBytes ((fun p : Payload => p.id ++ "-" ++ p.address)
            (auth_payload hexEncode ⟨[170], "pwd", some ⟨1⟩⟩ [11] 120000))) ++ "." ++
          hexEncode [1, 2]) ∧
    ewt_verify
        (fun s => match hexDecode s with
          | some bs => Except.ok bs
          | none => Except.error "bad base64")
        (fun _ => Except.ok (auth_payload hexEncode ⟨[170], "pwd", some ⟨1⟩⟩ [11] 120000))
        id id (fun _ _ => Except.ok [9]) (fun _ => [170])
        (hexEncode (stringBytes header_json))
        (hexEncode (stringBytes ((fun p : Payload => p.id ++ "-" ++ p.address)
          (auth_payload hexEncode ⟨[170], "pwd", some ⟨1⟩⟩ [11] 120000))))
        (hexEncode [1, 2])
      = Except.ok ⟨[170], auth_payload hexEncode ⟨[170], "pwd", some ⟨1⟩⟩ [11] 120000⟩ := by
  have h := ewt_token_round_trip hexEncode hexEncode
    (fun s => match hexDecode s with
      | some bs => Except.ok bs
      | none => Except.error "bad base64")
    (fun p => p.id ++ "-" ++ p.address)
    (fun _ => Except.ok (auth_payload hexEncode ⟨[170], "pwd", some ⟨1⟩⟩ [11] 120000))
    id (fun _ _ _ => Except.ok [1, 2]) id (fun _ _ => Except.ok [9]) (fun _ => [170])
    ⟨[170], "pwd", some ⟨1⟩⟩ ⟨1⟩ [11] 120000 [1, 2] [9]
    rfl rfl (by decide) (by decide) (by decide) (by decide) rfl rfl rfl
    (by decide) (by decide) (by decide)
  exact ⟨h.1, h.2.2.1⟩
